import Mathlib

/-!
Verification of the crypto price-alert bot's evaluation engine.

This file gives a shallow embedding of the core of the bot:

* `DatabaseService` (src/services/database.ts): the SQLite-backed store is
  modelled as explicit lists (`DBState`), with the SQL queries of
  `getPriceHistory`, `getRecentAlertLogs` and `getUserByTelegramId`
  translated to filters and sorts over those lists.
* `AlertService` (src/services/alert.ts): `shouldTriggerAlert`,
  `triggerAlert` and `checkPriceChanges` are translated to pure functions,
  with the fallible external calls (sqlite writes, the price fetch and the
  Telegram send) made explicit through a fault-injection record
  (`FaultModel`) and the fetch result passed as an `Option`.

Prices and percentages are modelled as rationals, timestamps as integers
(the unit being minutes, matching the `datetime('now', '-X minutes')`
comparisons of the SQL queries).
-/

namespace CryptoAlertBot

/-- Row of the `users` table (src/services/database.ts, `mapRowToUser`).
Only the fields the evaluation engine reads are kept. -/
structure User where
  id : Int
  telegramId : Int
  isActive : Bool
deriving DecidableEq

/-- Row of the `alert_configs` table (`mapRowToAlertConfig`). -/
structure AlertConfig where
  id : Nat
  userId : Int
  cryptoId : String
  thresholdPercentage : ℚ
  timeframeMinutes : Nat
  isActive : Bool
deriving DecidableEq

/-- Row of the `price_history` table (`mapRowToPriceHistory`). -/
structure PriceHistoryEntry where
  cryptoId : String
  price : ℚ
  timestamp : Int
deriving DecidableEq

/-- Row of the `alert_logs` table (`mapRowToAlertLog`); `sent` is the
delivered flag, defaulted to FALSE by the schema. -/
structure AlertLog where
  alertConfigId : Nat
  triggeredAt : Int
  priceChange : ℚ
  oldPrice : ℚ
  newPrice : ℚ
  sent : Bool
deriving DecidableEq

/-- The SQLite database state: one list per table, in insertion (rowid)
order.  Inserts append at the end. -/
structure DBState where
  users : List User
  alerts : List AlertConfig
  priceHistory : List PriceHistoryEntry
  alertLogs : List AlertLog
deriving DecidableEq

/-- The environment configuration consumed by the evaluation engine
(src/config/index.ts).  `ALERT_COOLDOWN_MINUTES` is a single global value;
there is no per-alert cooldown field anywhere in the data model. -/
structure Config where
  ALERT_COOLDOWN_MINUTES : Nat

/-- Descending-timestamp order used to model `ORDER BY timestamp DESC` on
`price_history`. -/
def tsDesc (a b : PriceHistoryEntry) : Prop :=
  b.timestamp ≤ a.timestamp

instance : DecidableRel tsDesc :=
  fun a b => inferInstanceAs (Decidable (b.timestamp ≤ a.timestamp))

instance : IsTotal PriceHistoryEntry tsDesc :=
  ⟨fun a b => Int.le_total b.timestamp a.timestamp⟩

instance : IsTrans PriceHistoryEntry tsDesc :=
  ⟨fun _ _ _ h1 h2 => le_trans h2 h1⟩

/-- Descending order on trigger time, modelling `ORDER BY triggered_at
DESC` on `alert_logs`. -/
def logDesc (a b : AlertLog) : Prop :=
  b.triggeredAt ≤ a.triggeredAt

instance : DecidableRel logDesc :=
  fun a b => inferInstanceAs (Decidable (b.triggeredAt ≤ a.triggeredAt))

instance : IsTotal AlertLog logDesc :=
  ⟨fun a b => Int.le_total b.triggeredAt a.triggeredAt⟩

instance : IsTrans AlertLog logDesc :=
  ⟨fun _ _ _ h1 h2 => le_trans h2 h1⟩

/-- `DatabaseService.getPriceHistory` (database.ts lines 213-222):
`SELECT * FROM price_history WHERE crypto_id = ? AND timestamp >=
datetime('now', '-X minutes') ORDER BY timestamp DESC`. -/
def getPriceHistory (db : DBState) (cryptoId : String) (timeframeMinutes : Nat)
    (now : Int) : List PriceHistoryEntry :=
  List.insertionSort tsDesc
    (db.priceHistory.filter
      (fun e => e.cryptoId == cryptoId &&
        decide (now - (timeframeMinutes : Int) ≤ e.timestamp)))

/-- `DatabaseService.getRecentAlertLogs` (database.ts lines 244-253):
`SELECT * FROM alert_logs WHERE alert_config_id = ? AND triggered_at >=
datetime('now', '-X minutes') ORDER BY triggered_at DESC`. -/
def getRecentAlertLogs (db : DBState) (alertConfigId : Nat) (minutes : Nat)
    (now : Int) : List AlertLog :=
  List.insertionSort logDesc
    (db.alertLogs.filter
      (fun l => l.alertConfigId == alertConfigId &&
        decide (now - (minutes : Int) ≤ l.triggeredAt)))

/-- `DatabaseService.getUserByTelegramId` (database.ts lines 120-127):
`SELECT * FROM users WHERE telegram_id = ?`. -/
def getUserByTelegramId (db : DBState) (telegramId : Int) : Option User :=
  db.users.find? (fun u => u.telegramId == telegramId)

/-- Fault injection for the effectful calls of the tick.  Each field says
whether the corresponding call throws for the given key:
`saveFails c` — `savePriceHistory` for crypto `c` (alert.ts line 353);
`historyReadFails i` — the `getPriceHistory` call made inside the per-alert
loop for alert `i` (alert.ts line 367; the calls inside
`shouldTriggerAlert` are covered by its own try/catch, which just returns
`false`, so a separate flag would be equivalent to a no-trigger outcome);
`logWriteFails i` — `createAlertLog` for alert `i` (alert.ts line 443);
`sendFails t` — `bot.api.sendMessage` to Telegram id `t` (alert.ts
line 474). -/
structure FaultModel where
  saveFails : String → Bool
  historyReadFails : Nat → Bool
  logWriteFails : Nat → Bool
  sendFails : Int → Bool

/-- The fault model in which every external call succeeds. -/
def noFaults : FaultModel :=
  { saveFails := fun _ => false
    historyReadFails := fun _ => false
    logWriteFails := fun _ => false
    sendFails := fun _ => false }

/-- `AlertService.shouldTriggerAlert` (alert.ts lines 391-431).  The source
checks `recentLogs.length > 0`, then `priceHistory.length === 0`, then
reads `priceHistory[priceHistory.length - 1]` (the last element of the
DESC-ordered query); the length check plus last-element read is translated
as a match on `getLast?`. -/
def shouldTriggerAlert (cfg : Config) (db : DBState) (now : Int)
    (alertConfig : AlertConfig) (currentPrice : ℚ) : Bool :=
  if 0 < (getRecentAlertLogs db alertConfig.id cfg.ALERT_COOLDOWN_MINUTES now).length then
    false
  else
    match (getPriceHistory db alertConfig.cryptoId alertConfig.timeframeMinutes now).getLast? with
    | none => false
    | some oldest =>
      decide ((currentPrice - oldest.price) / oldest.price * 100 ≤
        -alertConfig.thresholdPercentage)

/-- One attempted `bot.api.sendMessage` call: the recipient chat id and
whether the call succeeded. -/
structure SendAttempt where
  recipient : Int
  delivered : Bool
deriving DecidableEq

/-- `AlertService.triggerAlert` (alert.ts lines 433-491).  The alert log is
written first; if that write throws, the surrounding catch (line 488)
returns with nothing sent.  The owner is then resolved with
`getUserByTelegramId(alertConfig.userId)` (line 457); if absent the
function returns (line 460).  Otherwise the message is sent; a send
failure is caught at line 485.  On success the source only fetches recent
logs and logs a message (lines 479-484) — the `sent` flag of the log entry
is never updated.  The `getCoinInfo` call (line 453) only affects the
message text and is not modelled. -/
def triggerAlert (f : FaultModel) (now : Int) (db : DBState)
    (alertConfig : AlertConfig) (priceChange oldPrice newPrice : ℚ) :
    DBState × List SendAttempt :=
  if f.logWriteFails alertConfig.id then
    (db, [])
  else
    let db1 : DBState :=
      { db with alertLogs := db.alertLogs ++
          [{ alertConfigId := alertConfig.id, triggeredAt := now,
             priceChange := priceChange, oldPrice := oldPrice,
             newPrice := newPrice, sent := false }] }
    match getUserByTelegramId db1 alertConfig.userId with
    | none => (db1, [])
    | some user =>
      if f.sendFails user.telegramId then
        (db1, [{ recipient := user.telegramId, delivered := false }])
      else
        (db1, [{ recipient := user.telegramId, delivered := true }])

/-- Outcome of (part of) a tick: the database afterwards, the attempted
Telegram sends, the ids of the alerts whose per-alert loop body ran
(alert.ts line 364), and the ids of the alerts for which `triggerAlert`
was invoked (line 376). -/
structure TickTrace where
  db : DBState
  sends : List SendAttempt
  evaluated : List Nat
  triggered : List Nat

/-- Body of the per-alert try block (alert.ts lines 365-378): re-query the
history, and when it is non-empty compute the change from its oldest
sample and invoke `triggerAlert`.  A throw of the line-367 `getPriceHistory`
call is injected through `historyReadFails`; it is caught by the per-alert
catch (line 379). -/
def checkOneAlert (cfg : Config) (f : FaultModel) (now : Int) (db : DBState)
    (alert : AlertConfig) (currentPrice : ℚ) :
    DBState × List SendAttempt × List Nat :=
  if shouldTriggerAlert cfg db now alert currentPrice then
    if f.historyReadFails alert.id then
      (db, [], [])
    else
      match (getPriceHistory db alert.cryptoId alert.timeframeMinutes now).getLast? with
      | none => (db, [], [])
      | some oldest =>
        let priceChange := (currentPrice - oldest.price) / oldest.price * 100
        let r := triggerAlert f now db alert priceChange oldest.price currentPrice
        (r.1, r.2, [alert.id])
  else
    (db, [], [])

/-- The inner `for (const alert of alerts)` loop (alert.ts lines 364-382).
Each iteration is wrapped in its own try/catch, so the loop always reaches
every alert of the group. -/
def evalAlerts (cfg : Config) (f : FaultModel) (now : Int) (currentPrice : ℚ) :
    DBState → List AlertConfig → TickTrace
  | db, [] => ⟨db, [], [], []⟩
  | db, alert :: rest =>
    let r := checkOneAlert cfg f now db alert currentPrice
    let t := evalAlerts cfg f now currentPrice r.1 rest
    ⟨t.db, r.2.1 ++ t.sends, alert.id :: t.evaluated, r.2.2 ++ t.triggered⟩

/-- `currentPrices.get(cryptoId)` on the fetched price map (alert.ts
line 358), the map being modelled as an association list. -/
def lookupPrice (prices : List (String × ℚ)) (cryptoId : String) : Option ℚ :=
  (prices.find? (fun q => q.1 == cryptoId)).map Prod.snd

/-- The outer `for (const [cryptoId, alerts] of alertsByCrypto)` loop
(alert.ts lines 357-383).  The source guard is `if (!currentPrice)`, so a
missing asset and a fetched price of `0` (JavaScript falsiness) are both
skipped with a warning. -/
def evalGroups (cfg : Config) (f : FaultModel) (now : Int)
    (prices : List (String × ℚ)) :
    DBState → List (String × List AlertConfig) → TickTrace
  | db, [] => ⟨db, [], [], []⟩
  | db, (cryptoId, alerts) :: rest =>
    match lookupPrice prices cryptoId with
    | none => evalGroups cfg f now prices db rest
    | some currentPrice =>
      if currentPrice = 0 then
        evalGroups cfg f now prices db rest
      else
        let t1 := evalAlerts cfg f now currentPrice db alerts
        let t2 := evalGroups cfg f now prices t1.db rest
        ⟨t2.db, t1.sends ++ t2.sends, t1.evaluated ++ t2.evaluated,
          t1.triggered ++ t2.triggered⟩

/-- One step of building the `alertsByCrypto` map (alert.ts lines 337-343):
append the alert to its crypto's group, creating the group on first sight.
The association list preserves the `Map` insertion order. -/
def insertAlert : List (String × List AlertConfig) → AlertConfig →
    List (String × List AlertConfig)
  | [], a => [(a.cryptoId, [a])]
  | (k, g) :: rest, a =>
    if k == a.cryptoId then (k, g ++ [a]) :: rest
    else (k, g) :: insertAlert rest a

/-- The grouping of active alerts by crypto id (alert.ts lines 337-343). -/
def groupByCrypto (alerts : List AlertConfig) : List (String × List AlertConfig) :=
  alerts.foldl insertAlert []

/-- The `savePriceHistory` loop (alert.ts lines 352-354).  A throw of one
`savePriceHistory` call propagates out of the loop to the tick-level catch
(line 386), so the returned flag records whether the loop was aborted. -/
def savePriceLoop (f : FaultModel) (now : Int) :
    DBState → List (String × ℚ) → DBState × Bool
  | db, [] => (db, false)
  | db, (cryptoId, price) :: rest =>
    if f.saveFails cryptoId then
      (db, true)
    else
      savePriceLoop f now
        { db with priceHistory := db.priceHistory ++
            [{ cryptoId := cryptoId, price := price, timestamp := now }] }
        rest

/-- `AlertService.checkPriceChanges` (alert.ts lines 326-389), one tick.
`fetched` is the result of `cryptoService.getCurrentPrices`; `none` models
a throw of the batch fetch, which the tick-level catch turns into an
aborted tick.  An aborted save loop likewise ends the tick with the
partial database. -/
def checkPriceChanges (cfg : Config) (f : FaultModel) (now : Int)
    (fetched : Option (List (String × ℚ))) (db : DBState) : TickTrace :=
  let activeAlerts := db.alerts.filter (fun a => a.isActive)
  if activeAlerts.isEmpty then
    ⟨db, [], [], []⟩
  else
    match fetched with
    | none => ⟨db, [], [], []⟩
    | some currentPrices =>
      let r := savePriceLoop f now db currentPrices
      if r.2 then
        ⟨r.1, [], [], []⟩
      else
        evalGroups cfg f now currentPrices r.1 (groupByCrypto activeAlerts)

/-! ### Lemmas about the query models -/

/-- Membership in the windowed price-history query result. -/
theorem mem_getPriceHistory {db : DBState} {c : String} {tf : Nat} {now : Int}
    {x : PriceHistoryEntry} :
    x ∈ getPriceHistory db c tf now ↔
      x ∈ db.priceHistory ∧ x.cryptoId = c ∧ now - (tf : Int) ≤ x.timestamp := by
  unfold getPriceHistory
  rw [(List.perm_insertionSort tsDesc _).mem_iff, List.mem_filter]
  simp [and_assoc]

/-- The windowed query is empty exactly when no stored sample of the asset
lies in the window. -/
theorem getPriceHistory_eq_nil {db : DBState} {c : String} {tf : Nat} {now : Int} :
    getPriceHistory db c tf now = [] ↔
      ∀ e ∈ db.priceHistory, e.cryptoId = c → e.timestamp < now - (tf : Int) := by
  rw [List.eq_nil_iff_forall_not_mem]
  constructor
  · intro h e he hc
    by_contra hlt
    push_neg at hlt
    exact h e (mem_getPriceHistory.mpr ⟨he, hc, hlt⟩)
  · intro h x hx
    obtain ⟨hmem, hc, hts⟩ := mem_getPriceHistory.mp hx
    exact absurd hts (not_le.mpr (h x hmem hc))

/-- The last element of a list sorted by `r` is reached by `r` from every
other element. -/
theorem getLast?_sorted_min {α : Type} {r : α → α → Prop} {l : List α} {e : α}
    (hs : List.Pairwise r l) (he : l.getLast? = some e) :
    ∀ x ∈ l, x = e ∨ r x e := by
  obtain ⟨ys, rfl⟩ := List.getLast?_eq_some_iff.mp he
  intro x hx
  rcases List.mem_append.mp hx with h | h
  · exact Or.inr ((List.pairwise_append.mp hs).2.2 x h e (List.mem_singleton_self e))
  · exact Or.inl (List.mem_singleton.mp h)

/-- The baseline the evaluator reads (last element of the DESC-ordered
query) is an in-window sample of the asset with minimal timestamp. -/
theorem baseline_spec {db : DBState} {c : String} {tf : Nat} {now : Int}
    {e : PriceHistoryEntry}
    (he : (getPriceHistory db c tf now).getLast? = some e) :
    e ∈ db.priceHistory ∧ e.cryptoId = c ∧ now - (tf : Int) ≤ e.timestamp ∧
      ∀ x ∈ db.priceHistory, x.cryptoId = c → now - (tf : Int) ≤ x.timestamp →
        e.timestamp ≤ x.timestamp := by
  have hmem : e ∈ getPriceHistory db c tf now := by
    obtain ⟨ys, hys⟩ := List.getLast?_eq_some_iff.mp he
    rw [hys]
    exact List.mem_append.mpr (Or.inr (List.mem_singleton_self e))
  obtain ⟨h1, h2, h3⟩ := mem_getPriceHistory.mp hmem
  refine ⟨h1, h2, h3, ?_⟩
  intro x hx hxc hxt
  have hx2 : x ∈ getPriceHistory db c tf now := mem_getPriceHistory.mpr ⟨hx, hxc, hxt⟩
  have hsorted : List.Pairwise tsDesc (getPriceHistory db c tf now) := by
    unfold getPriceHistory
    exact List.sorted_insertionSort tsDesc _
  rcases getLast?_sorted_min hsorted he x hx2 with h | h
  · rw [h]
  · exact h

/-- A matching in-cooldown log row makes the cooldown query non-empty. -/
theorem getRecentAlertLogs_length_pos {db : DBState} {i : Nat} {m : Nat} {now : Int}
    {l : AlertLog} (hl : l ∈ db.alertLogs) (hid : l.alertConfigId = i)
    (ht : now - (m : Int) ≤ l.triggeredAt) :
    0 < (getRecentAlertLogs db i m now).length := by
  unfold getRecentAlertLogs
  rw [(List.perm_insertionSort logDesc _).length_eq]
  have hmem : l ∈ db.alertLogs.filter
      (fun l => l.alertConfigId == i && decide (now - (m : Int) ≤ l.triggeredAt)) :=
    List.mem_filter.mpr ⟨hl, by simp [hid, ht]⟩
  exact List.length_pos.mpr (List.ne_nil_of_mem hmem)

/-! ### Lemmas about the trigger decision -/

/-- A non-empty cooldown query makes the decision `false` outright. -/
theorem shouldTriggerAlert_of_cooldown {cfg : Config} {db : DBState} {now : Int}
    {a : AlertConfig} {p : ℚ}
    (h : 0 < (getRecentAlertLogs db a.id cfg.ALERT_COOLDOWN_MINUTES now).length) :
    shouldTriggerAlert cfg db now a p = false := by
  unfold shouldTriggerAlert
  rw [if_pos h]

/-- An empty windowed history makes the decision `false` outright. -/
theorem shouldTriggerAlert_of_no_history {cfg : Config} {db : DBState} {now : Int}
    {a : AlertConfig} {p : ℚ}
    (h : getPriceHistory db a.cryptoId a.timeframeMinutes now = []) :
    shouldTriggerAlert cfg db now a p = false := by
  unfold shouldTriggerAlert
  rw [h]
  simp

/-- Out of cooldown and with history available, the decision is exactly the
threshold comparison against the oldest in-window price. -/
theorem shouldTriggerAlert_eq_decide {cfg : Config} {db : DBState} {now : Int}
    {a : AlertConfig} {p : ℚ} {e : PriceHistoryEntry}
    (hcool : getRecentAlertLogs db a.id cfg.ALERT_COOLDOWN_MINUTES now = [])
    (hlast : (getPriceHistory db a.cryptoId a.timeframeMinutes now).getLast? = some e) :
    shouldTriggerAlert cfg db now a p =
      decide ((p - e.price) / e.price * 100 ≤ -a.thresholdPercentage) := by
  unfold shouldTriggerAlert
  rw [hcool, hlast]
  simp

/-! ### Claims C1-C3: the trigger decision -/

/-- C1: for an alert evaluated with a current price and a baseline from
in-window history, and not suppressed by cooldown, the decision is `true`
iff `(currentPrice - baselinePrice) / baselinePrice * 100 ≤ -threshold`;
a drop of exactly `threshold` percent triggers, and with a positive
baseline and positive threshold no rise (nor unchanged price) triggers. -/
theorem C1_trigger_iff_drop_at_least_threshold
    (cfg : Config) (db : DBState) (now : Int) (alert : AlertConfig)
    (currentPrice : ℚ) (oldest : PriceHistoryEntry)
    (hcool : getRecentAlertLogs db alert.id cfg.ALERT_COOLDOWN_MINUTES now = [])
    (hbase : (getPriceHistory db alert.cryptoId alert.timeframeMinutes now).getLast? =
      some oldest) :
    (shouldTriggerAlert cfg db now alert currentPrice = true ↔
      (currentPrice - oldest.price) / oldest.price * 100 ≤ -alert.thresholdPercentage) ∧
    ((currentPrice - oldest.price) / oldest.price * 100 = -alert.thresholdPercentage →
      shouldTriggerAlert cfg db now alert currentPrice = true) ∧
    (0 < oldest.price → 0 < alert.thresholdPercentage → oldest.price ≤ currentPrice →
      shouldTriggerAlert cfg db now alert currentPrice = false) := by
  have heq := shouldTriggerAlert_eq_decide (p := currentPrice) hcool hbase
  refine ⟨?_, ?_, ?_⟩
  · rw [heq]
    exact decide_eq_true_iff
  · intro h
    rw [heq, h]
    simp
  · intro hbpos htpos hrise
    rw [heq, decide_eq_false_iff_not]
    intro hle
    have h0 : (0 : ℚ) ≤ (currentPrice - oldest.price) / oldest.price * 100 :=
      mul_nonneg (div_nonneg (by linarith) hbpos.le) (by norm_num)
    linarith

/-- Global cooldown configuration shared by every witness scenario. -/
def cfgDefault : Config := ⟨30⟩

/-- Concrete alert used by the C1 witness: 5% drop threshold over a
60-minute window. -/
def alertC1 : AlertConfig :=
  { id := 1, userId := 1, cryptoId := "bitcoin", thresholdPercentage := 5,
    timeframeMinutes := 60, isActive := true }

/-- Concrete database used by the C1 witness: one in-window sample at
price 100. -/
def dbC1 : DBState :=
  { users := [], alerts := [alertC1],
    priceHistory := [{ cryptoId := "bitcoin", price := 100, timestamp := 0 }],
    alertLogs := [] }

/-- Witness for C1 at a concrete input: empty cooldown query, baseline
price 100 at time 0, current price 94, threshold 5. -/
theorem C1_witness :
    getRecentAlertLogs dbC1 alertC1.id cfgDefault.ALERT_COOLDOWN_MINUTES 10 = [] ∧
    (getPriceHistory dbC1 alertC1.cryptoId alertC1.timeframeMinutes 10).getLast? =
      some { cryptoId := "bitcoin", price := 100, timestamp := 0 } ∧
    ((shouldTriggerAlert cfgDefault dbC1 10 alertC1 94 = true ↔
       ((94 : ℚ) - 100) / 100 * 100 ≤ -(5 : ℚ)) ∧
     (((94 : ℚ) - 100) / 100 * 100 = -(5 : ℚ) →
       shouldTriggerAlert cfgDefault dbC1 10 alertC1 94 = true) ∧
     ((0 : ℚ) < 100 → (0 : ℚ) < 5 → (100 : ℚ) ≤ 94 →
       shouldTriggerAlert cfgDefault dbC1 10 alertC1 94 = false)) :=
  ⟨by decide, by decide,
    C1_trigger_iff_drop_at_least_threshold cfgDefault dbC1 10 alertC1 94
      { cryptoId := "bitcoin", price := 100, timestamp := 0 } (by decide) (by decide)⟩

/-- C2: any trigger-log row for this alert dated within the global
`ALERT_COOLDOWN_MINUTES` forces the decision to `false`, whatever the
current price and history.  The cooldown length is read from the global
`Config`; the `AlertConfig` row has no cooldown field, so the same value
applies to every alert. -/
theorem C2_cooldown_suppresses
    (cfg : Config) (db : DBState) (now : Int) (alert : AlertConfig)
    (currentPrice : ℚ) (log : AlertLog)
    (hmem : log ∈ db.alertLogs) (hid : log.alertConfigId = alert.id)
    (ht : now - (cfg.ALERT_COOLDOWN_MINUTES : Int) ≤ log.triggeredAt) :
    shouldTriggerAlert cfg db now alert currentPrice = false :=
  shouldTriggerAlert_of_cooldown (getRecentAlertLogs_length_pos hmem hid ht)

/-- Concrete database used by the C2 witness: a deep in-window drop, but a
trigger log only 10 minutes old. -/
def dbC2 : DBState :=
  { users := [], alerts := [alertC1],
    priceHistory := [{ cryptoId := "bitcoin", price := 100, timestamp := 0 }],
    alertLogs := [{ alertConfigId := 1, triggeredAt := 0, priceChange := -6,
                    oldPrice := 100, newPrice := 94, sent := false }] }

/-- Witness for C2 at a concrete input: a log entry at time 0 suppresses a
further 50% drop at time 10 under a 30-minute cooldown. -/
theorem C2_witness :
    ({ alertConfigId := 1, triggeredAt := 0, priceChange := -6, oldPrice := 100,
       newPrice := 94, sent := false } : AlertLog) ∈ dbC2.alertLogs ∧
    (10 : Int) - (cfgDefault.ALERT_COOLDOWN_MINUTES : Int) ≤ 0 ∧
    shouldTriggerAlert cfgDefault dbC2 10 alertC1 50 = false :=
  ⟨by decide, by decide,
    C2_cooldown_suppresses cfgDefault dbC2 10 alertC1 50
      { alertConfigId := 1, triggeredAt := 0, priceChange := -6, oldPrice := 100,
        newPrice := 94, sent := false } (by decide) (by decide) (by decide)⟩

/-- C3: the baseline used for the percentage-change computation is an
in-window stored sample of the alert's asset with minimal timestamp (so
never older than the window); and if no sample of the asset lies in the
window the decision is `false` (the alert is skipped, no error: the
decision function is total). -/
theorem C3_baseline_oldest_in_window
    (cfg : Config) (db : DBState) (now : Int) (alert : AlertConfig)
    (currentPrice : ℚ) :
    (∀ e, (getPriceHistory db alert.cryptoId alert.timeframeMinutes now).getLast? =
        some e →
      e ∈ db.priceHistory ∧ e.cryptoId = alert.cryptoId ∧
        now - (alert.timeframeMinutes : Int) ≤ e.timestamp ∧
        ∀ x ∈ db.priceHistory, x.cryptoId = alert.cryptoId →
          now - (alert.timeframeMinutes : Int) ≤ x.timestamp →
          e.timestamp ≤ x.timestamp) ∧
    ((∀ e ∈ db.priceHistory, e.cryptoId = alert.cryptoId →
        e.timestamp < now - (alert.timeframeMinutes : Int)) →
      shouldTriggerAlert cfg db now alert currentPrice = false) := by
  constructor
  · intro e he
    exact baseline_spec he
  · intro h
    exact shouldTriggerAlert_of_no_history (getPriceHistory_eq_nil.mpr h)

/-- Concrete database used by the C3 witness: two in-window samples; the
older one (price 100 at time 2) must be the baseline. -/
def dbC3 : DBState :=
  { users := [], alerts := [alertC1],
    priceHistory := [{ cryptoId := "bitcoin", price := 100, timestamp := 2 },
                     { cryptoId := "bitcoin", price := 90, timestamp := 5 }],
    alertLogs := [] }

/-- Witness for C3 at a concrete input: with samples at times 2 and 5 the
query's last element is the older sample, and it is minimal. -/
theorem C3_witness :
    (getPriceHistory dbC3 alertC1.cryptoId alertC1.timeframeMinutes 10).getLast? =
      some { cryptoId := "bitcoin", price := 100, timestamp := 2 } ∧
    (({ cryptoId := "bitcoin", price := 100, timestamp := 2 } : PriceHistoryEntry) ∈
        dbC3.priceHistory ∧
      ({ cryptoId := "bitcoin", price := 100, timestamp := 2 } :
        PriceHistoryEntry).cryptoId = alertC1.cryptoId ∧
      (10 : Int) - (alertC1.timeframeMinutes : Int) ≤ 2 ∧
      ∀ x ∈ dbC3.priceHistory, x.cryptoId = alertC1.cryptoId →
        (10 : Int) - (alertC1.timeframeMinutes : Int) ≤ x.timestamp →
        (2 : Int) ≤ x.timestamp) :=
  ⟨by decide,
    (C3_baseline_oldest_in_window cfgDefault dbC3 10 alertC1 94).1
      { cryptoId := "bitcoin", price := 100, timestamp := 2 } (by decide)⟩

/-! ### Lemmas about the tick structure -/

/-- The ids the per-alert loop reaches for a priced group: every alert of
the group, in order, whatever the fault model. -/
theorem evalAlerts_evaluated (cfg : Config) (f : FaultModel) (now : Int) (p : ℚ) :
    ∀ (alerts : List AlertConfig) (db : DBState),
      (evalAlerts cfg f now p db alerts).evaluated = alerts.map (fun a => a.id) := by
  intro alerts
  induction alerts with
  | nil => intro db; rfl
  | cons a rest ih =>
    intro db
    simp [evalAlerts, ih]

/-- The per-alert body invokes `triggerAlert` at most for its own alert. -/
theorem checkOneAlert_triggered_sub (cfg : Config) (f : FaultModel) (now : Int)
    (db : DBState) (a : AlertConfig) (p : ℚ) :
    (checkOneAlert cfg f now db a p).2.2 ⊆ [a.id] := by
  unfold checkOneAlert
  split
  · split
    · simp
    · split
      · simp
      · simp
  · simp

/-- Alerts triggered by the inner loop are among the loop's own alerts. -/
theorem evalAlerts_triggered_sub (cfg : Config) (f : FaultModel) (now : Int) (p : ℚ) :
    ∀ (alerts : List AlertConfig) (db : DBState),
      (evalAlerts cfg f now p db alerts).triggered ⊆ alerts.map (fun a => a.id) := by
  intro alerts
  induction alerts with
  | nil => intro db; simp [evalAlerts]
  | cons a rest ih =>
    intro db
    simp only [evalAlerts, List.map_cons]
    intro x hx
    rcases List.mem_append.mp hx with h | h
    · exact List.mem_cons.mpr (Or.inl (List.mem_singleton.mp
        (checkOneAlert_triggered_sub cfg f now db a p h)))
    · exact List.mem_cons.mpr (Or.inr (ih _ h))

/-- The ids the outer loop evaluates, as a pure function of the fetched
prices and the groups (independent of the database and the faults). -/
def expectedEvaluated (prices : List (String × ℚ)) :
    List (String × List AlertConfig) → List Nat
  | [] => []
  | (c, alerts) :: rest =>
    (match lookupPrice prices c with
     | none => []
     | some p => if p = 0 then [] else alerts.map (fun a => a.id)) ++
      expectedEvaluated prices rest

/-- The outer loop's evaluated trace is `expectedEvaluated`: it depends
only on the prices and the groups. -/
theorem evalGroups_evaluated (cfg : Config) (f : FaultModel) (now : Int)
    (prices : List (String × ℚ)) :
    ∀ (groups : List (String × List AlertConfig)) (db : DBState),
      (evalGroups cfg f now prices db groups).evaluated =
        expectedEvaluated prices groups := by
  intro groups
  induction groups with
  | nil => intro db; rfl
  | cons g rest ih =>
    intro db
    obtain ⟨c, alerts⟩ := g
    show (evalGroups cfg f now prices db ((c, alerts) :: rest)).evaluated = _
    unfold evalGroups expectedEvaluated
    cases h : lookupPrice prices c with
    | none => simp [ih]
    | some p =>
      by_cases hp : p = 0
      · simp [hp, ih]
      · simp [hp, ih, evalAlerts_evaluated]

/-- Alerts triggered by the outer loop are among the evaluated ones. -/
theorem evalGroups_triggered_sub (cfg : Config) (f : FaultModel) (now : Int)
    (prices : List (String × ℚ)) :
    ∀ (groups : List (String × List AlertConfig)) (db : DBState),
      (evalGroups cfg f now prices db groups).triggered ⊆
        (evalGroups cfg f now prices db groups).evaluated := by
  intro groups
  induction groups with
  | nil => intro db; simp [evalGroups]
  | cons g rest ih =>
    intro db
    obtain ⟨c, alerts⟩ := g
    unfold evalGroups
    cases h : lookupPrice prices c with
    | none => exact ih db
    | some p =>
      by_cases hp : p = 0
      · simp only [hp, if_pos rfl]
        exact ih db
      · simp only [hp, if_neg hp]
        intro x hx
        rcases List.mem_append.mp hx with h1 | h2
        · exact List.mem_append.mpr (Or.inl (by
            rw [evalAlerts_evaluated]
            exact evalAlerts_triggered_sub cfg f now p alerts db h1))
        · exact List.mem_append.mpr (Or.inr (ih _ h2))

/-- `triggerAlert` only appends to the alert-log table. -/
theorem triggerAlert_priceHistory (f : FaultModel) (now : Int) (db : DBState)
    (a : AlertConfig) (pc op np : ℚ) :
    ((triggerAlert f now db a pc op np).1).priceHistory = db.priceHistory := by
  unfold triggerAlert
  split
  · rfl
  · dsimp only
    split
    · rfl
    · split
      · rfl
      · rfl

/-- The per-alert body never touches the price-history table. -/
theorem checkOneAlert_priceHistory (cfg : Config) (f : FaultModel) (now : Int)
    (db : DBState) (a : AlertConfig) (p : ℚ) :
    ((checkOneAlert cfg f now db a p).1).priceHistory = db.priceHistory := by
  unfold checkOneAlert
  split
  · split
    · rfl
    · split
      · rfl
      · exact triggerAlert_priceHistory f now db a _ _ _
  · rfl

/-- The inner loop never touches the price-history table. -/
theorem evalAlerts_priceHistory (cfg : Config) (f : FaultModel) (now : Int) (p : ℚ) :
    ∀ (alerts : List AlertConfig) (db : DBState),
      ((evalAlerts cfg f now p db alerts).db).priceHistory = db.priceHistory := by
  intro alerts
  induction alerts with
  | nil => intro db; rfl
  | cons a rest ih =>
    intro db
    show ((evalAlerts cfg f now p db (a :: rest)).db).priceHistory = _
    unfold evalAlerts
    rw [ih, checkOneAlert_priceHistory]

/-- The outer loop never touches the price-history table: the history an
alert's evaluation queries is exactly the post-save history. -/
theorem evalGroups_priceHistory (cfg : Config) (f : FaultModel) (now : Int)
    (prices : List (String × ℚ)) :
    ∀ (groups : List (String × List AlertConfig)) (db : DBState),
      ((evalGroups cfg f now prices db groups).db).priceHistory = db.priceHistory := by
  intro groups
  induction groups with
  | nil => intro db; rfl
  | cons g rest ih =>
    intro db
    obtain ⟨c, alerts⟩ := g
    unfold evalGroups
    cases h : lookupPrice prices c with
    | none => exact ih db
    | some p =>
      by_cases hp : p = 0
      · simp only [hp, if_pos rfl]
        exact ih db
      · simp only [if_neg hp, ih, evalAlerts_priceHistory]

/-! ### Lemmas about the save loop -/

/-- When no save fails, the loop appends one sample per fetched price, in
order, each stamped with the current time. -/
theorem savePriceLoop_ok (f : FaultModel) (now : Int) :
    ∀ (prices : List (String × ℚ)) (db : DBState),
      (savePriceLoop f now db prices).2 = false →
      (savePriceLoop f now db prices).1.priceHistory =
        db.priceHistory ++
          prices.map (fun q => { cryptoId := q.1, price := q.2, timestamp := now }) := by
  intro prices
  induction prices with
  | nil => intro db _; simp [savePriceLoop]
  | cons q rest ih =>
    intro db h
    obtain ⟨c, p⟩ := q
    by_cases hc : f.saveFails c
    · rw [show savePriceLoop f now db ((c, p) :: rest) = (db, true) from by
        unfold savePriceLoop; rw [if_pos hc]] at h
      simp at h
    · unfold savePriceLoop at h ⊢
      rw [if_neg hc] at h ⊢
      rw [ih _ h]
      simp

/-- A failing save aborts the loop: everything before the failing asset is
recorded, nothing after it, and the abort flag is raised. -/
theorem savePriceLoop_fail (f : FaultModel) (now : Int) :
    ∀ (pre : List (String × ℚ)) (db : DBState) (c : String) (p : ℚ)
      (post : List (String × ℚ)),
      (∀ q ∈ pre, f.saveFails q.1 = false) → f.saveFails c = true →
      savePriceLoop f now db (pre ++ (c, p) :: post) =
        ({ db with priceHistory := db.priceHistory ++
            pre.map (fun q => { cryptoId := q.1, price := q.2, timestamp := now }) },
         true) := by
  intro pre
  induction pre with
  | nil =>
    intro db c p post _ hc
    simp [savePriceLoop, hc]
  | cons q rest ih =>
    intro db c p post hpre hc
    obtain ⟨c0, p0⟩ := q
    have h0 : f.saveFails c0 = false := hpre (c0, p0) (List.mem_cons_self _ _)
    show savePriceLoop f now db (((c0, p0) :: rest) ++ (c, p) :: post) = _
    rw [List.cons_append]
    unfold savePriceLoop
    rw [if_neg (by rw [h0]; exact Bool.false_ne_true)]
    rw [ih _ c p post (fun q hq => hpre q (List.mem_cons_of_mem _ hq)) hc]
    simp

/-- The abort flag of the save loop depends only on the `saveFails`
component of the fault model. -/
theorem savePriceLoop_congr {f f2 : FaultModel} (now : Int)
    (hsave : ∀ c, f2.saveFails c = f.saveFails c) :
    ∀ (prices : List (String × ℚ)) (db : DBState),
      savePriceLoop f2 now db prices = savePriceLoop f now db prices := by
  intro prices
  induction prices with
  | nil => intro db; rfl
  | cons q rest ih =>
    intro db
    obtain ⟨c, p⟩ := q
    unfold savePriceLoop
    rw [hsave c]
    by_cases hc : f.saveFails c
    · rw [if_pos hc, if_pos hc]
    · rw [if_neg hc, if_neg hc, ih]

/-! ### Lemmas about the grouping by crypto -/

/-- Inserting an alert preserves every alert already present in a group
with its key. -/
theorem insertAlert_preserve {k : String} {b : AlertConfig} :
    ∀ {acc : List (String × List AlertConfig)},
      (∃ g ∈ acc, g.1 = k ∧ b ∈ g.2) → ∀ (a : AlertConfig),
      ∃ g ∈ insertAlert acc a, g.1 = k ∧ b ∈ g.2 := by
  intro acc
  induction acc with
  | nil => intro h; simp at h
  | cons g0 rest ih =>
    intro h a
    obtain ⟨k0, l0⟩ := g0
    obtain ⟨g, hg, hk, hb⟩ := h
    unfold insertAlert
    by_cases hek : (k0 == a.cryptoId) = true
    · rw [if_pos hek]
      rcases List.mem_cons.mp hg with rfl | hg2
      · exact ⟨(k0, l0 ++ [a]), List.mem_cons_self _ _, hk,
          List.mem_append.mpr (Or.inl hb)⟩
      · exact ⟨g, List.mem_cons_of_mem _ hg2, hk, hb⟩
    · rw [if_neg hek]
      rcases List.mem_cons.mp hg with rfl | hg2
      · exact ⟨(k0, l0), List.mem_cons_self _ _, hk, hb⟩
      · obtain ⟨g2, hg2m, hk2, hb2⟩ := ih ⟨g, hg2, hk, hb⟩ a
        exact ⟨g2, List.mem_cons_of_mem _ hg2m, hk2, hb2⟩

/-- After inserting an alert, some group with the alert's own crypto id
contains it. -/
theorem insertAlert_self :
    ∀ (acc : List (String × List AlertConfig)) (a : AlertConfig),
      ∃ g ∈ insertAlert acc a, g.1 = a.cryptoId ∧ a ∈ g.2 := by
  intro acc
  induction acc with
  | nil =>
    intro a
    exact ⟨(a.cryptoId, [a]), List.mem_singleton_self _, rfl, List.mem_singleton_self _⟩
  | cons g0 rest ih =>
    intro a
    obtain ⟨k0, l0⟩ := g0
    unfold insertAlert
    by_cases hek : (k0 == a.cryptoId) = true
    · rw [if_pos hek]
      exact ⟨(k0, l0 ++ [a]), List.mem_cons_self _ _, beq_iff_eq.mp hek,
        List.mem_append.mpr (Or.inr (List.mem_singleton_self a))⟩
    · rw [if_neg hek]
      obtain ⟨g, hg, hk, hb⟩ := ih a
      exact ⟨g, List.mem_cons_of_mem _ hg, hk, hb⟩

/-- Completeness of the grouping: every alert of the list ends up in a
group keyed by its own crypto id. -/
theorem mem_groupByCrypto {b : AlertConfig} :
    ∀ (l : List AlertConfig) (acc : List (String × List AlertConfig)),
      (b ∈ l ∨ ∃ g ∈ acc, g.1 = b.cryptoId ∧ b ∈ g.2) →
      ∃ g ∈ l.foldl insertAlert acc, g.1 = b.cryptoId ∧ b ∈ g.2 := by
  intro l
  induction l with
  | nil =>
    intro acc h
    rcases h with h | h
    · simp at h
    · exact h
  | cons a rest ih =>
    intro acc h
    rw [List.foldl_cons]
    apply ih
    rcases h with h | h
    · rcases List.mem_cons.mp h with rfl | h2
      · exact Or.inr (insertAlert_self acc b)
      · exact Or.inl h2
    · exact Or.inr (insertAlert_preserve h a)

/-- Inserting preserves the grouping invariant: group members satisfy the
ambient property and carry their group's key. -/
theorem insertAlert_sound {P : AlertConfig → Prop} :
    ∀ {acc : List (String × List AlertConfig)},
      (∀ g ∈ acc, ∀ b ∈ g.2, P b ∧ b.cryptoId = g.1) →
      ∀ {a : AlertConfig}, P a →
      ∀ g ∈ insertAlert acc a, ∀ b ∈ g.2, P b ∧ b.cryptoId = g.1 := by
  intro acc
  induction acc with
  | nil =>
    intro _ a ha g hg b hb
    rw [show insertAlert [] a = [(a.cryptoId, [a])] from rfl] at hg
    rcases List.mem_singleton.mp hg with rfl
    rcases List.mem_singleton.mp hb with rfl
    exact ⟨ha, rfl⟩
  | cons g0 rest ih =>
    intro hacc a ha g hg b hb
    obtain ⟨k0, l0⟩ := g0
    unfold insertAlert at hg
    by_cases hek : (k0 == a.cryptoId) = true
    · rw [if_pos hek] at hg
      rcases List.mem_cons.mp hg with rfl | hg2
      · rcases List.mem_append.mp hb with hb0 | hb1
        · exact hacc (k0, l0) (List.mem_cons_self _ _) b hb0
        · rcases List.mem_singleton.mp hb1 with rfl
          exact ⟨ha, (beq_iff_eq.mp hek).symm⟩
      · exact hacc g (List.mem_cons_of_mem _ hg2) b hb
    · rw [if_neg hek] at hg
      rcases List.mem_cons.mp hg with rfl | hg2
      · exact hacc (k0, l0) (List.mem_cons_self _ _) b hb
      · exact ih (fun g2 hg2m => hacc g2 (List.mem_cons_of_mem _ hg2m)) ha g hg2 b hb

/-- Folding the grouping step preserves the invariant. -/
theorem foldl_insertAlert_sound {P : AlertConfig → Prop} :
    ∀ (l : List AlertConfig) (acc : List (String × List AlertConfig)),
      (∀ a ∈ l, P a) →
      (∀ g ∈ acc, ∀ b ∈ g.2, P b ∧ b.cryptoId = g.1) →
      ∀ g ∈ l.foldl insertAlert acc, ∀ b ∈ g.2, P b ∧ b.cryptoId = g.1 := by
  intro l
  induction l with
  | nil => intro acc _ hacc; exact hacc
  | cons a rest ih =>
    intro acc hl hacc
    rw [List.foldl_cons]
    exact ih _ (fun x hx => hl x (List.mem_cons_of_mem _ hx))
      (insertAlert_sound hacc (hl a (List.mem_cons_self _ _)))

/-- Soundness of the grouping: a group member comes from the original
list and its crypto id is its group's key. -/
theorem groupByCrypto_sound {l : List AlertConfig} :
    ∀ g ∈ groupByCrypto l, ∀ b ∈ g.2, b ∈ l ∧ b.cryptoId = g.1 :=
  foldl_insertAlert_sound l [] (fun _ ha => ha) (by simp)

/-! ### Characterization of the tick's evaluated trace -/

/-- Which alert ids a tick evaluates, independent of the fault components
other than the save failures and independent of the write effects. -/
theorem checkPriceChanges_evaluated (cfg : Config) (f : FaultModel) (now : Int)
    (prices : List (String × ℚ)) (db : DBState) :
    (checkPriceChanges cfg f now (some prices) db).evaluated =
      if (db.alerts.filter (fun a => a.isActive)).isEmpty then []
      else if (savePriceLoop f now db prices).2 then []
      else expectedEvaluated prices
        (groupByCrypto (db.alerts.filter (fun a => a.isActive))) := by
  unfold checkPriceChanges
  by_cases h : (db.alerts.filter (fun a => a.isActive)).isEmpty
  · rw [if_pos h, if_pos h]
  · rw [if_neg h, if_neg h]
    dsimp only
    by_cases h2 : (savePriceLoop f now db prices).2
    · rw [if_pos h2, if_pos h2]
    · rw [if_neg h2, if_neg h2, evalGroups_evaluated]

/-- A tick's triggered alerts are among its evaluated ones. -/
theorem checkPriceChanges_triggered_sub (cfg : Config) (f : FaultModel) (now : Int)
    (prices : List (String × ℚ)) (db : DBState) :
    (checkPriceChanges cfg f now (some prices) db).triggered ⊆
      (checkPriceChanges cfg f now (some prices) db).evaluated := by
  unfold checkPriceChanges
  by_cases h : (db.alerts.filter (fun a => a.isActive)).isEmpty
  · rw [if_pos h]
    exact List.Subset.refl _
  · rw [if_neg h]
    dsimp only
    by_cases h2 : (savePriceLoop f now db prices).2
    · rw [if_pos h2]
      exact List.Subset.refl _
    · rw [if_neg h2]
      exact evalGroups_triggered_sub cfg f now prices _ _

/-- Membership in the expected evaluated trace, introduction form. -/
theorem mem_expectedEvaluated_of {prices : List (String × ℚ)} {b : AlertConfig}
    {p : ℚ} :
    ∀ {groups : List (String × List AlertConfig)},
      (∃ g ∈ groups, g.1 = b.cryptoId ∧ b ∈ g.2) →
      lookupPrice prices b.cryptoId = some p → p ≠ 0 →
      b.id ∈ expectedEvaluated prices groups := by
  intro groups
  induction groups with
  | nil => intro h; simp at h
  | cons g0 rest ih =>
    intro h hp hp0
    obtain ⟨c0, al0⟩ := g0
    unfold expectedEvaluated
    rw [List.mem_append]
    obtain ⟨g, hg, hk, hb⟩ := h
    rcases List.mem_cons.mp hg with rfl | hg2
    · left
      rw [show c0 = b.cryptoId from hk, hp]
      show b.id ∈ (if p = 0 then ([] : List Nat) else al0.map (fun a => a.id))
      rw [if_neg hp0]
      exact List.mem_map.mpr ⟨b, hb, rfl⟩
    · exact Or.inr (ih ⟨g, hg2, hk, hb⟩ hp hp0)

/-- Membership in the expected evaluated trace, elimination form. -/
theorem mem_expectedEvaluated_elim {prices : List (String × ℚ)} {i : Nat} :
    ∀ {groups : List (String × List AlertConfig)},
      i ∈ expectedEvaluated prices groups →
      ∃ g ∈ groups, ∃ a ∈ g.2, a.id = i ∧
        ∃ p, lookupPrice prices g.1 = some p ∧ p ≠ 0 := by
  intro groups
  induction groups with
  | nil => intro h; simp [expectedEvaluated] at h
  | cons g0 rest ih =>
    intro h
    obtain ⟨c0, al0⟩ := g0
    unfold expectedEvaluated at h
    rcases List.mem_append.mp h with h1 | h2
    · cases hp : lookupPrice prices c0 with
      | none => rw [hp] at h1; simp at h1
      | some p =>
        rw [hp] at h1
        have h1a : i ∈ (if p = 0 then ([] : List Nat) else al0.map (fun a => a.id)) := h1
        by_cases hp0 : p = 0
        · rw [if_pos hp0] at h1a
          simp at h1a
        · rw [if_neg hp0] at h1a
          obtain ⟨a, ha, hai⟩ := List.mem_map.mp h1a
          exact ⟨(c0, al0), List.mem_cons_self _ _, a, ha, hai, p, hp, hp0⟩
    · obtain ⟨g, hg, a, ha, hai, p, hp, hp0⟩ := ih h2
      exact ⟨g, List.mem_cons_of_mem _ hg, a, ha, hai, p, hp, hp0⟩

/-! ### Claims C4-C6: the trigger path -/

/-- C4: the trigger log entry (alert id, now, percentage change, old
price, new price, delivered=false) is written before any delivery attempt:
if the write fails nothing is sent and the store is untouched; if any send
is attempted the entry is already in the store; on a successful write the
entry is appended with exactly those fields whatever the delivery outcome;
and which alerts the tick evaluates does not depend on the log-write (or
send, or per-alert read) faults, only on the save faults. -/
theorem C4_log_written_before_delivery
    (cfg : Config) (f f2 : FaultModel) (now : Int) (db : DBState)
    (alert : AlertConfig) (priceChange oldPrice newPrice : ℚ)
    (prices : List (String × ℚ))
    (hsave : ∀ c, f2.saveFails c = f.saveFails c) :
    (f.logWriteFails alert.id = true →
       triggerAlert f now db alert priceChange oldPrice newPrice = (db, [])) ∧
    (f.logWriteFails alert.id = false →
       (triggerAlert f now db alert priceChange oldPrice newPrice).1.alertLogs =
         db.alertLogs ++
           [{ alertConfigId := alert.id, triggeredAt := now, priceChange := priceChange,
              oldPrice := oldPrice, newPrice := newPrice, sent := false }]) ∧
    ((triggerAlert f now db alert priceChange oldPrice newPrice).2 ≠ [] →
       (triggerAlert f now db alert priceChange oldPrice newPrice).1.alertLogs =
         db.alertLogs ++
           [{ alertConfigId := alert.id, triggeredAt := now, priceChange := priceChange,
              oldPrice := oldPrice, newPrice := newPrice, sent := false }]) ∧
    (checkPriceChanges cfg f2 now (some prices) db).evaluated =
      (checkPriceChanges cfg f now (some prices) db).evaluated := by
  have h1 : f.logWriteFails alert.id = true →
      triggerAlert f now db alert priceChange oldPrice newPrice = (db, []) := by
    intro h
    unfold triggerAlert
    rw [if_pos h]
  have h2 : f.logWriteFails alert.id = false →
      (triggerAlert f now db alert priceChange oldPrice newPrice).1.alertLogs =
        db.alertLogs ++
          [{ alertConfigId := alert.id, triggeredAt := now, priceChange := priceChange,
             oldPrice := oldPrice, newPrice := newPrice, sent := false }] := by
    intro h
    unfold triggerAlert
    rw [if_neg (by rw [h]; exact Bool.false_ne_true)]
    dsimp only
    split
    · rfl
    · split
      · rfl
      · rfl
  refine ⟨h1, h2, ?_, ?_⟩
  · intro hsend
    by_cases h : f.logWriteFails alert.id
    · exact absurd (by rw [h1 h]) hsend
    · exact h2 (Bool.not_eq_true _ ▸ (by simpa using h))
  · rw [checkPriceChanges_evaluated, checkPriceChanges_evaluated,
      savePriceLoop_congr now hsave]

/-- Concrete alert for the C4 witness. -/
def alertC4 : AlertConfig :=
  { id := 1, userId := 1, cryptoId := "bitcoin", thresholdPercentage := 5,
    timeframeMinutes := 60, isActive := true }

/-- Concrete database for the C4 witness. -/
def dbC4 : DBState :=
  { users := [{ id := 1, telegramId := 500, isActive := true }],
    alerts := [alertC4], priceHistory := [], alertLogs := [] }

/-- Fault model for the C4 witness: the log write for alert 1 fails. -/
def fC4 : FaultModel :=
  { saveFails := fun _ => false, historyReadFails := fun _ => false,
    logWriteFails := fun i => i == 1, sendFails := fun _ => false }

/-- Witness for C4 at a concrete input: the failing log write leaves the
store untouched and nothing is sent. -/
theorem C4_witness :
    fC4.logWriteFails alertC4.id = true ∧
    triggerAlert fC4 10 dbC4 alertC4 (-6) 100 94 = (dbC4, []) :=
  ⟨by decide,
    (C4_log_written_before_delivery cfgDefault fC4 fC4 10 dbC4 alertC4 (-6) 100 94 []
      (fun _ => rfl)).1 (by decide)⟩

/-- Concrete alert for C5: its stored owner reference is the internal
user id 1 (telegram.ts line 446 stores `userId: user.id`). -/
def alertC5 : AlertConfig :=
  { id := 1, userId := 1, cryptoId := "bitcoin", thresholdPercentage := 5,
    timeframeMinutes := 60, isActive := true }

/-- Concrete database for C5: the owner exists, with internal id 1 and
telegram id 500. -/
def dbC5 : DBState :=
  { users := [{ id := 1, telegramId := 500, isActive := true }],
    alerts := [alertC5], priceHistory := [], alertLogs := [] }

/-- C5 (code bug): alert creation stores the owner as the internal
`users.id` (telegram.ts line 446, `userId: user.id`; the schema declares
`user_id` a foreign key to `users(id)`), but `triggerAlert` resolves the
owner with `getUserByTelegramId(alertConfig.userId)` (alert.ts line 457),
i.e. against the `telegram_id` column.  Concretely: the owner (internal
id 1, telegram id 500) exists and the trigger log is written, yet the
lookup returns nothing and no notification is attempted, contradicting
the claim that the stored owner is resolved and notified. -/
theorem C5_owner_lookup_uses_wrong_key :
    (∃ u ∈ dbC5.users, u.id = alertC5.userId) ∧
    getUserByTelegramId dbC5 alertC5.userId = none ∧
    (triggerAlert noFaults 10 dbC5 alertC5 (-6) 100 94).1.alertLogs =
      [{ alertConfigId := 1, triggeredAt := 10, priceChange := -6, oldPrice := 100,
         newPrice := 94, sent := false }] ∧
    (triggerAlert noFaults 10 dbC5 alertC5 (-6) 100 94).2 = [] := by
  refine ⟨⟨{ id := 1, telegramId := 500, isActive := true }, by decide, rfl⟩,
    by decide, by decide, by decide⟩

/-- Concrete alert for C6; its `userId` (7) happens to coincide with the
owner's telegram id, so the (buggy) owner lookup succeeds and delivery
happens. -/
def alertC6 : AlertConfig :=
  { id := 2, userId := 7, cryptoId := "bitcoin", thresholdPercentage := 5,
    timeframeMinutes := 60, isActive := true }

/-- Concrete database for C6. -/
def dbC6 : DBState :=
  { users := [{ id := 3, telegramId := 7, isActive := true }],
    alerts := [alertC6], priceHistory := [], alertLogs := [] }

/-- C6 (code bug): after a successful delivery the source only re-reads
recent logs and logs a success message (alert.ts lines 478-484, whose
comments say the entry should be updated and that an update method would
be required); the `sent` flag of the written trigger-log entry therefore
stays `false`.  Concretely: delivery succeeds (one attempt, delivered),
yet every stored log entry still has `sent = false`. -/
theorem C6_delivered_flag_never_set :
    (triggerAlert noFaults 10 dbC6 alertC6 (-6) 100 94).2 =
      [{ recipient := 7, delivered := true }] ∧
    (triggerAlert noFaults 10 dbC6 alertC6 (-6) 100 94).1.alertLogs =
      [{ alertConfigId := 2, triggeredAt := 10, priceChange := -6, oldPrice := 100,
         newPrice := 94, sent := false }] ∧
    ∀ l ∈ (triggerAlert noFaults 10 dbC6 alertC6 (-6) 100 94).1.alertLogs,
      l.sent = false := by
  refine ⟨by decide, by decide, by decide⟩

/-! ### Claims C7-C8: failure isolation in the tick -/

/-- Concrete alerts and database for the C7 scenarios: one active alert on
asset "aaa" and one on asset "bbb". -/
def alertC7a : AlertConfig :=
  { id := 1, userId := 1, cryptoId := "aaa", thresholdPercentage := 5,
    timeframeMinutes := 60, isActive := true }

/-- Second alert of the C7 scenario, on asset "bbb". -/
def alertC7b : AlertConfig :=
  { id := 2, userId := 1, cryptoId := "bbb", thresholdPercentage := 5,
    timeframeMinutes := 60, isActive := true }

/-- Database for the C7 scenarios. -/
def dbC7 : DBState :=
  { users := [], alerts := [alertC7a, alertC7b], priceHistory := [], alertLogs := [] }

/-- Fault model in which recording asset "aaa" fails. -/
def fC7 : FaultModel :=
  { saveFails := fun c => c == "aaa", historyReadFails := fun _ => false,
    logWriteFails := fun _ => false, sendFails := fun _ => false }

/-- C7 counterexample: both "aaa" and "bbb" returned a price, the save of
"aaa"'s sample fails, and "bbb"'s sample is NOT recorded (the history
stays empty): the failure on one asset does prevent recording the other,
because the loop at alert.ts lines 352-354 has no per-asset error
isolation and the thrown error reaches the tick-level catch. -/
theorem C7_counterexample :
    lookupPrice [("aaa", 1), ("bbb", 2)] "aaa" = some 1 ∧
    lookupPrice [("aaa", 1), ("bbb", 2)] "bbb" = some 2 ∧
    (checkPriceChanges cfgDefault fC7 5 (some [("aaa", 1), ("bbb", 2)])
      dbC7).db.priceHistory = [] := by
  refine ⟨by decide, by decide, by decide⟩

/-- C7 corrected: a failure while recording one asset's sample propagates
to the tick-level catch: the samples fetched before it are recorded, the
samples after it are not, and no alert at all is evaluated (hence nothing
is sent) in that tick. -/
theorem C7_amended_save_failure_aborts_tick
    (cfg : Config) (f : FaultModel) (now : Int) (db : DBState)
    (pre post : List (String × ℚ)) (c : String) (p : ℚ)
    (hpre : ∀ q ∈ pre, f.saveFails q.1 = false) (hc : f.saveFails c = true) :
    savePriceLoop f now db (pre ++ (c, p) :: post) =
      ({ db with priceHistory := db.priceHistory ++
          pre.map (fun q => { cryptoId := q.1, price := q.2, timestamp := now }) },
       true) ∧
    (checkPriceChanges cfg f now (some (pre ++ (c, p) :: post)) db).evaluated = [] ∧
    (checkPriceChanges cfg f now (some (pre ++ (c, p) :: post)) db).sends = [] := by
  have hs := savePriceLoop_fail f now pre db c p post hpre hc
  refine ⟨hs, ?_, ?_⟩
  · unfold checkPriceChanges
    by_cases h : (db.alerts.filter (fun a => a.isActive)).isEmpty
    · rw [if_pos h]
    · rw [if_neg h]
      dsimp only
      rw [hs]
      simp
  · unfold checkPriceChanges
    by_cases h : (db.alerts.filter (fun a => a.isActive)).isEmpty
    · rw [if_pos h]
    · rw [if_neg h]
      dsimp only
      rw [hs]
      simp

/-- Fault model for the C7 witness: recording asset "bbb" fails. -/
def fC7w : FaultModel :=
  { saveFails := fun c => c == "bbb", historyReadFails := fun _ => false,
    logWriteFails := fun _ => false, sendFails := fun _ => false }

/-- Witness for the corrected C7 at a concrete input: with "aaa" saved
first and the save of "bbb" failing, "aaa"'s sample is recorded, the loop
aborts, and the tick evaluates and sends nothing. -/
theorem C7_witness :
    (∀ q ∈ [(("aaa" : String), (1 : ℚ))], fC7w.saveFails q.1 = false) ∧
    fC7w.saveFails "bbb" = true ∧
    (savePriceLoop fC7w 5 dbC7 [("aaa", 1), ("bbb", 2)] =
      ({ users := [], alerts := [alertC7a, alertC7b],
         priceHistory := [{ cryptoId := "aaa", price := 1, timestamp := 5 }],
         alertLogs := [] }, true) ∧
     (checkPriceChanges cfgDefault fC7w 5
        (some [("aaa", 1), ("bbb", 2)]) dbC7).evaluated = [] ∧
     (checkPriceChanges cfgDefault fC7w 5
        (some [("aaa", 1), ("bbb", 2)]) dbC7).sends = []) :=
  ⟨by decide, by decide,
    C7_amended_save_failure_aborts_tick cfgDefault fC7w 5 dbC7 [("aaa", 1)] [] "bbb" 2
      (by decide) (by decide)⟩

/-- Any active alert whose asset carries a usable (non-falsy) price is
reached by the tick's per-alert loop, whatever the fault model's
per-alert components. -/
theorem evaluated_of_priced
    (cfg : Config) (f : FaultModel) (now : Int) (prices : List (String × ℚ))
    (db : DBState) {b : AlertConfig} {p : ℚ}
    (hb : b ∈ db.alerts.filter (fun a => a.isActive))
    (hp : lookupPrice prices b.cryptoId = some p) (hp0 : p ≠ 0)
    (hsave : (savePriceLoop f now db prices).2 = false) :
    b.id ∈ (checkPriceChanges cfg f now (some prices) db).evaluated := by
  have h0 : (db.alerts.filter (fun a => a.isActive)).isEmpty = false := by
    rw [List.isEmpty_eq_false]
    exact List.ne_nil_of_mem hb
  rw [checkPriceChanges_evaluated, h0, hsave]
  rw [if_neg (by simp), if_neg (by simp)]
  exact mem_expectedEvaluated_of
    (mem_groupByCrypto (db.alerts.filter (fun a => a.isActive)) [] (Or.inl hb)) hp hp0

/-- C8: whatever the per-alert faults (history read, log write, send), an
error thrown while evaluating or triggering one alert never removes any
other alert from the tick's evaluation: every active alert whose asset
returned a usable price is reached by the per-alert loop. -/
theorem C8_per_alert_errors_isolated
    (cfg : Config) (f : FaultModel) (now : Int) (prices : List (String × ℚ))
    (db : DBState) (b : AlertConfig) (p : ℚ)
    (hb : b ∈ db.alerts.filter (fun a => a.isActive))
    (hp : lookupPrice prices b.cryptoId = some p) (hp0 : p ≠ 0)
    (hsave : (savePriceLoop f now db prices).2 = false) :
    b.id ∈ (checkPriceChanges cfg f now (some prices) db).evaluated :=
  evaluated_of_priced cfg f now prices db hb hp hp0 hsave

/-- First alert of the C8 witness scenario. -/
def alertC8a : AlertConfig :=
  { id := 1, userId := 1, cryptoId := "aaa", thresholdPercentage := 5,
    timeframeMinutes := 60, isActive := true }

/-- Second alert of the C8 witness scenario. -/
def alertC8b : AlertConfig :=
  { id := 2, userId := 1, cryptoId := "bbb", thresholdPercentage := 5,
    timeframeMinutes := 60, isActive := true }

/-- Database for the C8 witness. -/
def dbC8 : DBState :=
  { users := [], alerts := [alertC8a, alertC8b], priceHistory := [], alertLogs := [] }

/-- Fault model for the C8 witness: every per-alert operation fails. -/
def fC8 : FaultModel :=
  { saveFails := fun _ => false, historyReadFails := fun _ => true,
    logWriteFails := fun _ => true, sendFails := fun _ => true }

/-- Witness for C8 at a concrete input: with every per-alert operation
failing, alert 2 is still evaluated. -/
theorem C8_witness :
    alertC8b ∈ dbC8.alerts.filter (fun a => a.isActive) ∧
    lookupPrice [("aaa", 10), ("bbb", 20)] alertC8b.cryptoId = some 20 ∧
    ((20 : ℚ) ≠ 0) ∧
    (savePriceLoop fC8 5 dbC8 [("aaa", 10), ("bbb", 20)]).2 = false ∧
    alertC8b.id ∈ (checkPriceChanges cfgDefault fC8 5
      (some [("aaa", 10), ("bbb", 20)]) dbC8).evaluated :=
  ⟨by decide, by decide, by decide, by decide,
    C8_per_alert_errors_isolated cfgDefault fC8 5 [("aaa", 10), ("bbb", 20)] dbC8
      alertC8b 20 (by decide) (by decide) (by decide) (by decide)⟩

/-! ### Claims C9-C10: missing prices and same-tick history -/

/-- First alert of the C9 scenario, on asset "aaa". -/
def alertC9a : AlertConfig :=
  { id := 1, userId := 1, cryptoId := "aaa", thresholdPercentage := 5,
    timeframeMinutes := 60, isActive := true }

/-- Second alert of the C9 scenario, on asset "bbb". -/
def alertC9b : AlertConfig :=
  { id := 2, userId := 1, cryptoId := "bbb", thresholdPercentage := 5,
    timeframeMinutes := 60, isActive := true }

/-- Database for the C9 scenarios. -/
def dbC9 : DBState :=
  { users := [], alerts := [alertC9a, alertC9b], priceHistory := [], alertLogs := [] }

/-- C9 counterexample: asset "bbb" did return a price (0), yet its alert
is not evaluated in the tick — the guard `if (!currentPrice)` (alert.ts
line 359) treats the returned 0 as missing, refuting the claim that every
alert whose asset returned a price is still evaluated. -/
theorem C9_counterexample :
    lookupPrice [("aaa", 10), ("bbb", 0)] alertC9b.cryptoId = some 0 ∧
    alertC9b.id ∉ (checkPriceChanges cfgDefault noFaults 5
      (some [("aaa", 10), ("bbb", 0)]) dbC9).evaluated := by
  refine ⟨by decide, ?_⟩
  rw [checkPriceChanges_evaluated]
  decide

/-- C9 corrected: an alert whose asset is absent from the fetch response —
or whose returned price is 0, which the falsiness guard treats the same
way — is skipped for the tick (never evaluated, never a trigger), while
alerts for assets with a non-zero returned price are still evaluated in
the same tick. -/
theorem C9_amended_missing_or_zero_price_skipped
    (cfg : Config) (f : FaultModel) (now : Int) (prices : List (String × ℚ))
    (db : DBState) (b : AlertConfig)
    (hnodup : ((db.alerts.filter (fun a => a.isActive)).map (fun a => a.id)).Nodup)
    (hb : b ∈ db.alerts.filter (fun a => a.isActive)) :
    ((lookupPrice prices b.cryptoId = none ∨ lookupPrice prices b.cryptoId = some 0) →
       b.id ∉ (checkPriceChanges cfg f now (some prices) db).evaluated ∧
       b.id ∉ (checkPriceChanges cfg f now (some prices) db).triggered) ∧
    (∀ p, lookupPrice prices b.cryptoId = some p → p ≠ 0 →
       (savePriceLoop f now db prices).2 = false →
       b.id ∈ (checkPriceChanges cfg f now (some prices) db).evaluated) := by
  constructor
  · intro hmiss
    have hnotin : b.id ∉ (checkPriceChanges cfg f now (some prices) db).evaluated := by
      intro hin
      rw [checkPriceChanges_evaluated] at hin
      by_cases h1 : (db.alerts.filter (fun a => a.isActive)).isEmpty
      · rw [if_pos h1] at hin
        simp at hin
      · rw [if_neg h1] at hin
        by_cases h2 : (savePriceLoop f now db prices).2
        · rw [if_pos h2] at hin
          simp at hin
        · rw [if_neg h2] at hin
          obtain ⟨g, hg, a, ha, haid, p, hp, hp0⟩ := mem_expectedEvaluated_elim hin
          obtain ⟨haf, hak⟩ := groupByCrypto_sound g hg a ha
          have hab : a = b := List.inj_on_of_nodup_map hnodup haf hb haid
          rw [hab] at hak
          rw [← hak] at hp
          rcases hmiss with hm | hm
          · rw [hm] at hp
            exact Option.noConfusion hp
          · rw [hm] at hp
            exact hp0 (Option.some.inj hp).symm
    exact ⟨hnotin,
      fun htrig => hnotin (checkPriceChanges_triggered_sub cfg f now prices db htrig)⟩
  · intro p hp hp0 hsave
    exact evaluated_of_priced cfg f now prices db hb hp hp0 hsave

/-- Witness for the corrected C9 at a concrete input: asset "bbb" absent
from the response, its alert is neither evaluated nor triggered. -/
theorem C9_witness :
    ((dbC9.alerts.filter (fun a => a.isActive)).map (fun a => a.id)).Nodup ∧
    alertC9b ∈ dbC9.alerts.filter (fun a => a.isActive) ∧
    lookupPrice [(("aaa" : String), (10 : ℚ))] alertC9b.cryptoId = none ∧
    (alertC9b.id ∉ (checkPriceChanges cfgDefault noFaults 5
        (some [("aaa", 10)]) dbC9).evaluated ∧
     alertC9b.id ∉ (checkPriceChanges cfgDefault noFaults 5
        (some [("aaa", 10)]) dbC9).triggered) :=
  ⟨by decide, by decide, by decide,
    (C9_amended_missing_or_zero_price_skipped cfgDefault noFaults 5 [("aaa", 10)] dbC9
      alertC9b (by decide) (by decide)).1 (Or.inl (by decide))⟩

/-- The saved samples of the current tick that the windowed query keeps
are exactly the fetched entries for the queried asset (the current
timestamp always lies in the window). -/
theorem filter_map_samples {now : Int} {c : String} {tf : Nat}
    (htf : now - (tf : Int) ≤ now) :
    ∀ prices : List (String × ℚ),
      ((prices.map (fun q =>
          ({ cryptoId := q.1, price := q.2, timestamp := now } : PriceHistoryEntry))).filter
        (fun e => e.cryptoId == c && decide (now - (tf : Int) ≤ e.timestamp))) =
      (prices.filter (fun q => q.1 == c)).map
        (fun q => { cryptoId := q.1, price := q.2, timestamp := now }) := by
  intro prices
  induction prices with
  | nil => rfl
  | cons q rest ih =>
    obtain ⟨c0, p0⟩ := q
    rw [List.map_cons, List.filter_cons, List.filter_cons]
    have hd : decide (now - (tf : Int) ≤ now) = true := decide_eq_true htf
    by_cases hc : (c0 == c) = true
    · rw [show (({ cryptoId := c0, price := p0, timestamp := now } :
          PriceHistoryEntry).cryptoId == c &&
          decide (now - (tf : Int) ≤
            ({ cryptoId := c0, price := p0, timestamp := now } :
              PriceHistoryEntry).timestamp)) = true from by
            rw [show ({ cryptoId := c0, price := p0, timestamp := now } :
              PriceHistoryEntry).cryptoId = c0 from rfl] at *
            rw [hc, hd]
            rfl]
      rw [if_pos rfl, hc, if_pos rfl, List.map_cons, ih]
    · have hc2 : (c0 == c) = false := by
        cases h : (c0 == c)
        · rfl
        · exact absurd h hc
      rw [show (({ cryptoId := c0, price := p0, timestamp := now } :
          PriceHistoryEntry).cryptoId == c &&
          decide (now - (tf : Int) ≤
            ({ cryptoId := c0, price := p0, timestamp := now } :
              PriceHistoryEntry).timestamp)) = false from by
            rw [show ({ cryptoId := c0, price := p0, timestamp := now } :
              PriceHistoryEntry).cryptoId = c0 from rfl] at *
            rw [hc2]
            rfl]
      rw [if_neg (by simp), hc2, if_neg (by simp), ih]

/-- With pairwise-distinct keys (a JavaScript `Map`), filtering the price
list for one present key yields exactly that entry. -/
theorem filter_key_singleton :
    ∀ {prices : List (String × ℚ)} {c : String} {p : ℚ},
      (prices.map Prod.fst).Nodup → (c, p) ∈ prices →
      prices.filter (fun q => q.1 == c) = [(c, p)] := by
  intro prices
  induction prices with
  | nil => intro c p _ hmem; simp at hmem
  | cons q rest ih =>
    intro c p hkeys hmem
    obtain ⟨c0, p0⟩ := q
    rw [List.map_cons, List.nodup_cons] at hkeys
    rcases List.mem_cons.mp hmem with heq | h2
    · injection heq with h1 h2
      subst h1
      subst h2
      rw [List.filter_cons_of_pos (by simp)]
      have hrest : rest.filter (fun q => q.1 == c) = [] :=
        List.filter_eq_nil_iff.mpr (fun q hq hqc => by
          exact hkeys.1 (List.mem_map.mpr ⟨q, hq, by simpa using hqc⟩))
      rw [hrest]
    · have hc0 : c0 ≠ c := by
        intro h
        rw [h] at hkeys
        exact hkeys.1 (List.mem_map.mpr ⟨(c, p), h2, rfl⟩)
      rw [List.filter_cons_of_neg (by simp [hc0])]
      exact ih hkeys.2 h2

/-- C10: for any active alert whose asset has a usable fetched price and
whose save loop completed, the windowed history query made at evaluation
time — i.e. against any state carrying the post-save history, which is
what the evaluation loop passes along — is non-empty, so the
insufficient-history skip branch is unreachable in the tick flow; and if
the asset had no earlier in-window sample, the baseline is the sample just
recorded at the current price, the computed change is 0, and a positive
threshold can never be triggered by it. -/
theorem C10_current_sample_guarantees_history
    (cfg : Config) (f : FaultModel) (now : Int) (prices : List (String × ℚ))
    (db : DBState) (b : AlertConfig) (p : ℚ)
    (hkeys : (prices.map Prod.fst).Nodup)
    (hsave : (savePriceLoop f now db prices).2 = false)
    (hb : b ∈ db.alerts.filter (fun a => a.isActive))
    (hp : lookupPrice prices b.cryptoId = some p) (hp0 : p ≠ 0) :
    (∀ db1 : DBState,
       db1.priceHistory = (savePriceLoop f now db prices).1.priceHistory →
       getPriceHistory db1 b.cryptoId b.timeframeMinutes now ≠ []) ∧
    ((∀ e ∈ db.priceHistory, e.cryptoId = b.cryptoId →
        e.timestamp < now - (b.timeframeMinutes : Int)) →
      ∀ db1 : DBState,
        db1.priceHistory = (savePriceLoop f now db prices).1.priceHistory →
        (getPriceHistory db1 b.cryptoId b.timeframeMinutes now).getLast? =
          some { cryptoId := b.cryptoId, price := p, timestamp := now } ∧
        (0 < b.thresholdPercentage →
          shouldTriggerAlert cfg db1 now b p = false)) := by
  have hpm : (b.cryptoId, p) ∈ prices := by
    unfold lookupPrice at hp
    cases hfind : prices.find? (fun q => q.1 == b.cryptoId) with
    | none =>
      rw [hfind] at hp
      exact Option.noConfusion hp
    | some q =>
      rw [hfind] at hp
      have hq2 : q.2 = p := Option.some.inj hp
      have hq1 : q.1 = b.cryptoId := by simpa using List.find?_some hfind
      have hqm := List.mem_of_find?_eq_some hfind
      obtain ⟨q1, q2⟩ := q
      rw [show q1 = b.cryptoId from hq1, show q2 = p from hq2] at hqm
      exact hqm
  have hph : (savePriceLoop f now db prices).1.priceHistory =
      db.priceHistory ++ prices.map
        (fun q => { cryptoId := q.1, price := q.2, timestamp := now }) :=
    savePriceLoop_ok f now prices db hsave
  have htf : now - (b.timeframeMinutes : Int) ≤ now :=
    sub_le_self now (Int.natCast_nonneg _)
  have hsample : ({ cryptoId := b.cryptoId, price := p, timestamp := now } :
      PriceHistoryEntry) ∈ (savePriceLoop f now db prices).1.priceHistory := by
    rw [hph]
    exact List.mem_append.mpr (Or.inr (List.mem_map.mpr ⟨(b.cryptoId, p), hpm, rfl⟩))
  constructor
  · intro db1 hdb1 hnil
    have hmem1 : ({ cryptoId := b.cryptoId, price := p, timestamp := now } :
        PriceHistoryEntry) ∈ db1.priceHistory := by
      rw [hdb1]
      exact hsample
    have := getPriceHistory_eq_nil.mp hnil _ hmem1 rfl
    exact absurd htf (not_le.mpr this)
  · intro hold db1 hdb1
    have hfilter : db1.priceHistory.filter
        (fun e => e.cryptoId == b.cryptoId &&
          decide (now - (b.timeframeMinutes : Int) ≤ e.timestamp)) =
        [{ cryptoId := b.cryptoId, price := p, timestamp := now }] := by
      rw [hdb1, hph, List.filter_append]
      have h1 : db.priceHistory.filter
          (fun e => e.cryptoId == b.cryptoId &&
            decide (now - (b.timeframeMinutes : Int) ≤ e.timestamp)) = [] :=
        List.filter_eq_nil_iff.mpr (fun e he hcontra => by
          simp only [Bool.and_eq_true, beq_iff_eq, decide_eq_true_eq] at hcontra
          exact absurd hcontra.2 (not_le.mpr (hold e he hcontra.1)))
      rw [h1, filter_map_samples htf prices, filter_key_singleton hkeys hpm]
      rfl
    have hgph : getPriceHistory db1 b.cryptoId b.timeframeMinutes now =
        [{ cryptoId := b.cryptoId, price := p, timestamp := now }] := by
      unfold getPriceHistory
      rw [hfilter]
      rfl
    constructor
    · rw [hgph]
      rfl
    · intro hθ
      unfold shouldTriggerAlert
      by_cases hcool :
          0 < (getRecentAlertLogs db1 b.id cfg.ALERT_COOLDOWN_MINUTES now).length
      · rw [if_pos hcool]
      · rw [if_neg hcool, hgph]
        show decide ((p - p) / p * 100 ≤ -b.thresholdPercentage) = false
        rw [decide_eq_false_iff_not, sub_self, zero_div, zero_mul]
        intro hle
        linarith

/-- Alert of the C10 witness scenario. -/
def alertC10 : AlertConfig :=
  { id := 9, userId := 1, cryptoId := "bitcoin", thresholdPercentage := 5,
    timeframeMinutes := 60, isActive := true }

/-- Database for the C10 witness: no prior history at all. -/
def dbC10 : DBState :=
  { users := [], alerts := [alertC10], priceHistory := [], alertLogs := [] }

/-- Witness for C10 at a concrete input: the freshly saved sample at
price 50 makes the windowed query return it as baseline, and a 5%
threshold does not trigger on the resulting 0% change. -/
theorem C10_witness :
    (([(("bitcoin" : String), (50 : ℚ))].map Prod.fst).Nodup) ∧
    (savePriceLoop noFaults 7 dbC10 [("bitcoin", 50)]).2 = false ∧
    alertC10 ∈ dbC10.alerts.filter (fun a => a.isActive) ∧
    lookupPrice [("bitcoin", 50)] alertC10.cryptoId = some 50 ∧
    ((50 : ℚ) ≠ 0) ∧
    (∀ e ∈ dbC10.priceHistory, e.cryptoId = alertC10.cryptoId →
       e.timestamp < 7 - (alertC10.timeframeMinutes : Int)) ∧
    ((getPriceHistory (savePriceLoop noFaults 7 dbC10 [("bitcoin", 50)]).1
        alertC10.cryptoId alertC10.timeframeMinutes 7).getLast? =
      some { cryptoId := alertC10.cryptoId, price := 50, timestamp := 7 } ∧
     ((0 : ℚ) < alertC10.thresholdPercentage →
       shouldTriggerAlert cfgDefault
         (savePriceLoop noFaults 7 dbC10 [("bitcoin", 50)]).1 7 alertC10 50 = false)) :=
  ⟨by decide, by decide, by decide, by decide, by decide, by decide,
    (C10_current_sample_guarantees_history cfgDefault noFaults 7 [("bitcoin", 50)]
      dbC10 alertC10 50 (by decide) (by decide) (by decide) (by decide) (by decide)).2
      (by decide) _ rfl⟩

end CryptoAlertBot
